import Mathlib

/-! Shotcut filter controller.

A shallow embedding of `src/controllers/filtercontroller.cpp`: the controller's
fields become a record, every member function becomes a function on that
record, and every `emit` appends to an explicit trace of emissions.

`int` values are embedded as `Int`.  The only arithmetic in the file is
`rowCount() - 1` on a non-negative row count, which cannot wrap.
-/

namespace Shotcut

/-! ## Collaborators declared outside `filtercontroller.cpp` -/

/-- Handle of an `Mlt::Filter` attached to the producer. -/
abbrev MltFilter := Nat

/-- Persisted per-descriptor settings, as key/value pairs. -/
abbrev Settings := List (String × String)

/-- Modelled from the spec: the class `QmlMetadata` (qmltypes/qmlmetadata.h) is
not part of the sources at hand.  The record carries the four fields of the
spec's Filter Descriptor (`uniqueId`, display `name`, backend `mlt_service`,
source `path`) and the persisted settings that finalisation loads. -/
structure QmlMetadata where
  uniqueId : String
  name : String
  mlt_service : String
  path : String
  settings : Settings
deriving DecidableEq, Repr

/-- Modelled from the spec: `QmlMetadata::loadSettings` "loads any persisted
per-descriptor settings"; the persisted store is the argument `store`.
Identity, name and backend binding are left alone. -/
def QmlMetadata.loadSettings (store : QmlMetadata → Settings) (m : QmlMetadata) :
    QmlMetadata :=
  { m with settings := store m }

/-- Modelled from the spec: `QmlMetadata::setPath` "stamps its source path". -/
def QmlMetadata.setPath (m : QmlMetadata) (dir : String) : QmlMetadata :=
  { m with path := dir }

/-- Modelled from the spec: the class `QmlFilter` (qmltypes/qmlfilter.h) is not
part of the sources at hand.  It wraps the live filter instance and the
descriptor, both possibly null, and has the transient `isNew` flag. -/
structure QmlFilter where
  mltFilter : Option MltFilter
  metadata : Option QmlMetadata
  isNew : Bool
deriving DecidableEq, Repr

/-- Modelled from the spec: the constructor `QmlFilter(mltFilter, metadata)`;
`isNew` is "set only at the moment of insertion", so a fresh object has it
cleared. -/
def QmlFilter.new (mltFilter : Option MltFilter) (metadata : Option QmlMetadata) :
    QmlFilter :=
  { mltFilter := mltFilter, metadata := metadata, isNew := false }

/-- Modelled from the spec: `QmlFilter::setIsNew`. -/
def QmlFilter.setIsNew (f : QmlFilter) (isNew : Bool) : QmlFilter :=
  { f with isNew := isNew }

/-- One Attachment Entry: a descriptor (null for a filter without one) and the
live filter instance. -/
structure AttachedEntry where
  metadata : Option QmlMetadata
  filter : MltFilter
deriving DecidableEq, Repr

/-- Modelled from the spec: the class `AttachedFiltersModel`
(models/attachedfiltersmodel.h) is not part of the sources at hand.  It is the
spec's Attachment List, an ordered sequence of Attachment Entries. -/
structure AttachedFiltersModel where
  entries : List AttachedEntry
deriving DecidableEq, Repr

/-- Modelled from the spec: `AttachedFiltersModel::rowCount`, the size of the
Attachment List. -/
def AttachedFiltersModel.rowCount (m : AttachedFiltersModel) : Int :=
  m.entries.length

/-- Modelled from the spec: `AttachedFiltersModel::getMetadata`, the descriptor
of the entry at `index`; null when there is no entry there ("absent
descriptor") or the entry has no descriptor. -/
def AttachedFiltersModel.getMetadata (m : AttachedFiltersModel) (index : Int) :
    Option QmlMetadata :=
  if 0 ≤ index ∧ index < m.rowCount then
    (m.entries.get? index.toNat).bind (fun e => e.metadata)
  else none

/-- Modelled from the spec: `AttachedFiltersModel::getFilter`, the live filter
instance of the entry at `index`; null when there is no entry there. -/
def AttachedFiltersModel.getFilter (m : AttachedFiltersModel) (index : Int) :
    Option MltFilter :=
  if 0 ≤ index ∧ index < m.rowCount then
    (m.entries.get? index.toNat).map (fun e => e.filter)
  else none

/-- Modelled from the spec: the class `MetadataModel` (models/metadatamodel.h)
is not part of the sources at hand.  It is the spec's Metadata Registry, an
ordered sequence of descriptors. -/
structure MetadataModel where
  list : List QmlMetadata
deriving DecidableEq, Repr

/-- Modelled from the spec: `MetadataModel::add` appends ("insertion order =
discovery order", "append to the Metadata Registry"). -/
def MetadataModel.add (m : MetadataModel) (data : QmlMetadata) : MetadataModel :=
  { list := m.list ++ [data] }

/-- Modelled from the spec: `MetadataModel::rowCount`. -/
def MetadataModel.rowCount (m : MetadataModel) : Nat :=
  m.list.length

/-- Modelled from the spec: `MetadataModel::get`, indexed read; `none` stands
for a read past the end. -/
def MetadataModel.get (m : MetadataModel) (i : Nat) : Option QmlMetadata :=
  m.list.get? i

/-! ## Qt and MLT primitives -/

/-- The character-level work of `QString::arg(const QString&)` on a pattern whose
only place marker is `%1`: every `%1` is replaced by the argument, and the
inserted text is not scanned again. -/
def QString.argChars : List Char → List Char → List Char
  | '%' :: '1' :: rest, a => a ++ QString.argChars rest a
  | c :: rest, a => c :: QString.argChars rest a
  | [], _ => []

/-- `QString::arg(const QString&)`. -/
def QString.arg (pattern a : String) : String :=
  String.mk (QString.argChars pattern.data a.data)

/-- `QObject::tr` with no translation installed: the source text. -/
def tr (sourceText : String) : String :=
  sourceText

/-- Conversion `QString(const char*)`: a null pointer gives the empty string. -/
def QString.fromCStr : Option String → String
  | some s => s
  | none => ""

/-- An `Mlt::Service`, seen through `Mlt::Properties::get`: the value of a
property, or null when the property is not set. -/
structure MltService where
  get : String → Option String

/-- The filter section of the MLT service repository, `MLT.repository()->filters()`:
the names of the filter services this build provides. -/
abbrev FilterRepository := List String

/-- `Mlt::Properties::get_data(name)` on the filter repository, seen as the
null test made of its result: `true` when a service is registered under `name`. -/
def FilterRepository.get_data (r : FilterRepository) (name : String) : Bool :=
  r.contains name

/-- One file matching `meta*.qml`: what `component.create()` followed by
`qobject_cast<QmlMetadata*>` gives for it, `none` being the null pointer. -/
structure MetaFile where
  fileName : String
  create : Option QmlMetadata
deriving DecidableEq, Repr

/-- One entry of `dir.entryList(...)` under `filters`: the sub-directory, its
absolute path, and its `meta*.qml` files in `entryList()` order. -/
structure FilterDir where
  dirName : String
  absolutePath : String
  files : List MetaFile
deriving DecidableEq, Repr

/-! ## Signals -/

/-- The signals `FilterController` emits, with their arguments. -/
inductive Signal where
  | currentFilterAboutToChange
  | currentFilterChanged (filter : Option QmlFilter) (metadata : Option QmlMetadata)
      (index : Int)
  | statusChanged (message : String)
deriving DecidableEq, Repr

/-- One `emit`: the signal, and the content of the controller's `m_currentFilter`
slot while the connected slots run (Qt delivers direct connections
synchronously, inside `emit`). -/
structure Emission where
  signal : Signal
  currentFilterDuring : Option QmlFilter
deriving DecidableEq, Repr

/-! ## The controller -/

/-- The fields of `FilterController`, and the trace of what it has emitted. -/
structure FilterController where
  m_metadataModel : MetadataModel
  m_attachedModel : AttachedFiltersModel
  m_currentFilterIndex : Int
  m_currentFilter : Option QmlFilter
  emitted : List Emission
deriving DecidableEq, Repr

namespace FilterController

/-- The statement `emit signal(...)`. -/
def emit (c : FilterController) (s : Signal) : FilterController :=
  { c with emitted := c.emitted ++ [⟨s, c.m_currentFilter⟩] }

/-- The signals emitted so far, oldest first. -/
def signals (c : FilterController) : List Signal :=
  c.emitted.map (fun e => e.signal)

/-- `FilterController::setCurrentFilter(int attachedIndex)`. -/
def setCurrentFilter (c : FilterController) (attachedIndex : Int) : FilterController :=
  if attachedIndex = c.m_currentFilterIndex then
    c
  else
    let c := { c with m_currentFilterIndex := attachedIndex }
    let metadata := c.m_attachedModel.getMetadata c.m_currentFilterIndex
    let filter : Option QmlFilter :=
      match metadata with
      | some _ =>
        let mltFilter := c.m_attachedModel.getFilter c.m_currentFilterIndex
        some (QmlFilter.new mltFilter metadata)
      | none => none
    let c := c.emit Signal.currentFilterAboutToChange
    let c := c.emit (Signal.currentFilterChanged filter metadata c.m_currentFilterIndex)
    { c with m_currentFilter := filter }

/-- `FilterController::handleAttachedModelAboutToReset()`. -/
def handleAttachedModelAboutToReset (c : FilterController) : FilterController :=
  c.setCurrentFilter (-1)

/-- `FilterController::handleAttachedRowsRemoved(const QModelIndex&, int first, int)`;
the attachment list already has its rows removed when the slot runs. -/
def handleAttachedRowsRemoved (c : FilterController) (first : Int) (_last : Int) :
    FilterController :=
  let newFilterIndex := first
  let newFilterIndex :=
    if newFilterIndex ≥ c.m_attachedModel.rowCount then c.m_attachedModel.rowCount - 1
    else newFilterIndex
  let c := { c with m_currentFilterIndex := -2 } -- Force update
  c.setCurrentFilter newFilterIndex

/-- `FilterController::handleAttachedRowsInserted(const QModelIndex&, int first, int)`;
the attachment list already has its rows inserted when the slot runs. -/
def handleAttachedRowsInserted (c : FilterController) (first : Int) (_last : Int) :
    FilterController :=
  let c := { c with m_currentFilterIndex := first }
  let mltFilter := c.m_attachedModel.getFilter c.m_currentFilterIndex
  let metadata := c.m_attachedModel.getMetadata c.m_currentFilterIndex
  let filter := QmlFilter.new mltFilter metadata
  let filter := filter.setIsNew true
  let c := c.emit Signal.currentFilterAboutToChange
  let c := c.emit (Signal.currentFilterChanged (some filter) metadata c.m_currentFilterIndex)
  { c with m_currentFilter := some filter }

/-- `FilterController::handleAttachDuplicateFailed(int index)`; `none` is the
dereference of a null `meta`. -/
def handleAttachDuplicateFailed (c : FilterController) (index : Int) :
    Option FilterController :=
  match c.m_attachedModel.getMetadata index with
  | none => none
  | some metadata =>
    let c := c.emit
      (Signal.statusChanged (QString.arg (tr "Only one %1 filter is allowed.") metadata.name))
    some (c.setCurrentFilter index)

/-- `FilterController::addMetadata(QmlMetadata* meta)`. -/
def addMetadata (c : FilterController) (metadata : QmlMetadata) : FilterController :=
  { c with m_metadataModel := c.m_metadataModel.add metadata }

/-- The body of the inner `foreach` of `loadFilterMetadata`, for one file of
`subdir`.  The `qDebug`/`qWarning` lines write to the log only. -/
def loadFilterMetadataFile (repository : FilterRepository) (store : QmlMetadata → Settings)
    (subdir : FilterDir) (c : FilterController) (file : MetaFile) : FilterController :=
  match file.create with
  | some metadata =>
    -- Check if mlt_service is available.
    if repository.get_data metadata.mlt_service then
      let metadata := metadata.loadSettings store
      let metadata := metadata.setPath subdir.absolutePath
      c.addMetadata metadata
    else c
  | none => c

/-- `FilterController::loadFilterMetadata()`, over the directories found under
`filters`: the outer `foreach` over the sub-directories, the inner one over the
files of each. -/
def loadFilterMetadata (repository : FilterRepository) (store : QmlMetadata → Settings)
    (dirs : List FilterDir) (c : FilterController) : FilterController :=
  dirs.foldl
    (fun c subdir => subdir.files.foldl (loadFilterMetadataFile repository store subdir) c) c

/-- The `for` loop of `metadataForService` over the indices still to visit, in
order: the first entry whose `uniqueId` matches ends the loop (`break`). -/
def metadataForServiceLoop (model : MetadataModel) (uniqueId : String) :
    List Nat → Option QmlMetadata
  | [] => none
  | i :: rest =>
    match model.get i with
    | some tmpMeta =>
      if tmpMeta.uniqueId = uniqueId then some tmpMeta
      else metadataForServiceLoop model uniqueId rest
    | none => none -- not reached: every index visited is below `rowCount`

/-- `FilterController::metadataForService(Mlt::Service *service)`, with the
controller it leaves behind.  `kShotcutFilterProperty` is a constant of
shotcut_mlt_properties.h, which is not part of the sources at hand. -/
def metadataForService (kShotcutFilterProperty : String) (c : FilterController)
    (service : MltService) : Option QmlMetadata × FilterController :=
  let rowCount := c.m_metadataModel.rowCount
  let uniqueId := QString.fromCStr (service.get kShotcutFilterProperty)
  -- Fallback to mlt_service for legacy filters
  let uniqueId :=
    if uniqueId.isEmpty then QString.fromCStr (service.get "mlt_service") else uniqueId
  -- for (int i = 0; i < rowCount; i++)
  (metadataForServiceLoop c.m_metadataModel uniqueId (List.range rowCount), c)

end FilterController

/-! ## Scenario states -/

namespace Scenario

/-- The descriptor of the spec's scenarios: `uniqueId` and display name "blur". -/
def blur : QmlMetadata :=
  { uniqueId := "blur", name := "blur", mlt_service := "boxblur", path := "", settings := [] }

/-- A second descriptor. -/
def glow : QmlMetadata :=
  { uniqueId := "glow", name := "glow", mlt_service := "frei0r.glow", path := "", settings := [] }

/-- An attachment list with 3 entries. -/
def threeEntries : List AttachedEntry :=
  [⟨some blur, 10⟩, ⟨some glow, 11⟩, ⟨none, 12⟩]

/-- The controller of the detach scenario when the rows-removed slot runs: the
selection is still at index 2, and the list has lost its entry 0. -/
def afterDetachFirst : FilterController :=
  { m_metadataModel := ⟨[blur, glow]⟩
    m_attachedModel := ⟨threeEntries.eraseIdx 0⟩
    m_currentFilterIndex := 2
    m_currentFilter := some (QmlFilter.new (some 12) none)
    emitted := [] }

/-- A controller whose selection is the last of 2 entries left after a removal
at row 1, so that the index does not change numerically. -/
def afterDetachSecond : FilterController :=
  { m_metadataModel := ⟨[blur, glow]⟩
    m_attachedModel := ⟨threeEntries.eraseIdx 1⟩
    m_currentFilterIndex := 1
    m_currentFilter := some (QmlFilter.new (some 11) (some glow))
    emitted := [] }

/-- The controller of the duplicate scenario: "blur" was attached at index 0 of
an empty list and the rows-inserted slot has run. -/
def blurAttached : FilterController :=
  FilterController.handleAttachedRowsInserted
    { m_metadataModel := ⟨[blur]⟩
      m_attachedModel := ⟨[⟨some blur, 10⟩]⟩
      m_currentFilterIndex := -1
      m_currentFilter := none
      emitted := [] } 0 0

/-- A second descriptor file declaring the `uniqueId` "blur" again, on another
backend service. -/
def blurAgain : QmlMetadata :=
  { uniqueId := "blur", name := "blur (fast)", mlt_service := "avfilter.boxblur", path := "",
    settings := [] }

/-- A descriptor whose backend service this build does not have. -/
def movitBlur : QmlMetadata :=
  { uniqueId := "movitBlur", name := "blur", mlt_service := "movit.blur", path := "",
    settings := [] }

/-- The filter services of the scenario build. -/
def repository : FilterRepository :=
  ["boxblur", "avfilter.boxblur", "frei0r.glow"]

/-- A plugin tree: a package with two descriptor files of `uniqueId` "blur" and
one whose backend is absent, and a package with a file that fails to
instantiate followed by "glow". -/
def pluginTree : List FilterDir :=
  [ { dirName := "blur", absolutePath := "/qml/filters/blur",
      files := [⟨"meta.qml", some blur⟩, ⟨"meta_av.qml", some blurAgain⟩,
                ⟨"meta_movit.qml", some movitBlur⟩] },
    { dirName := "glow", absolutePath := "/qml/filters/glow",
      files := [⟨"meta_broken.qml", none⟩, ⟨"meta_frei0r.qml", some glow⟩] } ]

/-- The controller as constructed: nothing discovered, attached or selected. -/
def fresh : FilterController :=
  { m_metadataModel := ⟨[]⟩
    m_attachedModel := ⟨[]⟩
    m_currentFilterIndex := -1
    m_currentFilter := none
    emitted := [] }

/-- A legacy service: no shotcut filter property, `mlt_service` "glow". -/
def legacyService : MltService :=
  { get := fun name => if name = "mlt_service" then some "glow" else none }

end Scenario

/-! ## Vocabulary of the discovery and lookup claims -/

/-- The candidate descriptor files of a plugin tree, each with its directory:
directory order, then file order. -/
def candidates (dirs : List FilterDir) : List (FilterDir × MetaFile) :=
  dirs.flatMap (fun d => d.files.map (fun f => (d, f)))

/-- The successfully instantiated descriptor of a candidate whose `mlt_service`
is in the repository; `none` for a failed instantiation or an absent backend. -/
def instantiated (repository : FilterRepository) (candidate : FilterDir × MetaFile) :
    Option QmlMetadata :=
  candidate.2.create.filter (fun m => decide (m.mlt_service ∈ repository))

/-- The registry entry made of an instantiated descriptor found in directory `d`:
settings loaded, path stamped. -/
def finalized (store : QmlMetadata → Settings) (d : FilterDir) (m : QmlMetadata) :
    QmlMetadata :=
  (m.loadSettings store).setPath d.absolutePath

/-- The registry entries a plugin tree gives, in candidate order. -/
def discovered (repository : FilterRepository) (store : QmlMetadata → Settings)
    (dirs : List FilterDir) : List QmlMetadata :=
  (candidates dirs).filterMap
    (fun candidate => (instantiated repository candidate).map (finalized store candidate.1))

/-- The lookup key in the claim's words: the service's shotcut filter property
when that is non-empty, otherwise the service's `mlt_service` name. -/
def lookupKey (kShotcutFilterProperty : String) (service : MltService) : String :=
  if QString.fromCStr (service.get kShotcutFilterProperty) ≠ "" then
    QString.fromCStr (service.get kShotcutFilterProperty)
  else QString.fromCStr (service.get "mlt_service")

/-! ## Selection state machine: lemmas -/

namespace FilterController

theorem rowCount_nonneg (m : AttachedFiltersModel) : 0 ≤ m.rowCount := by
  unfold AttachedFiltersModel.rowCount
  exact Int.ofNat_nonneg _

theorem rowCount_eq_zero_iff (m : AttachedFiltersModel) : m.rowCount = 0 ↔ m.entries = [] := by
  unfold AttachedFiltersModel.rowCount
  rw [Int.natCast_eq_zero, List.length_eq_zero]

theorem signals_emit (c : FilterController) (s : Signal) :
    (c.emit s).signals = c.signals ++ [s] := by
  simp [signals, emit]

theorem setCurrentFilter_same (c : FilterController) (i : Int)
    (h : i = c.m_currentFilterIndex) : c.setCurrentFilter i = c := by
  simp [setCurrentFilter, h]

theorem setCurrentFilter_other (c : FilterController) (i : Int)
    (h : i ≠ c.m_currentFilterIndex) :
    c.setCurrentFilter i =
      { m_metadataModel := c.m_metadataModel
        m_attachedModel := c.m_attachedModel
        m_currentFilterIndex := i
        m_currentFilter := (c.m_attachedModel.getMetadata i).map
          (fun _ => QmlFilter.new (c.m_attachedModel.getFilter i) (c.m_attachedModel.getMetadata i))
        emitted := c.emitted ++
          [⟨Signal.currentFilterAboutToChange, c.m_currentFilter⟩,
           ⟨Signal.currentFilterChanged
              ((c.m_attachedModel.getMetadata i).map
                (fun _ => QmlFilter.new (c.m_attachedModel.getFilter i)
                  (c.m_attachedModel.getMetadata i)))
              (c.m_attachedModel.getMetadata i) i, c.m_currentFilter⟩] } := by
  unfold setCurrentFilter
  rw [if_neg h]
  cases hm : c.m_attachedModel.getMetadata i <;> simp [emit, hm]

theorem setCurrentFilter_index (c : FilterController) (i : Int) :
    (c.setCurrentFilter i).m_currentFilterIndex = i := by
  by_cases h : i = c.m_currentFilterIndex
  · rw [setCurrentFilter_same c i h]; exact h.symm
  · rw [setCurrentFilter_other c i h]

/-- The index `handleAttachedRowsRemoved` passes on is never the force-update
value when the removed range starts at a row number. -/
theorem removed_target_ne_sentinel (m : AttachedFiltersModel) (first : Int) (h : 0 ≤ first) :
    (if first ≥ m.rowCount then m.rowCount - 1 else first) ≠ -2 := by
  have hn := rowCount_nonneg m
  split <;> omega

theorem handleAttachedRowsRemoved_eq (c : FilterController) (first last : Int) :
    c.handleAttachedRowsRemoved first last =
      setCurrentFilter { c with m_currentFilterIndex := -2 }
        (if first ≥ c.m_attachedModel.rowCount then c.m_attachedModel.rowCount - 1 else first) :=
  rfl

end FilterController

/-! ## Selection state machine: the claims -/

namespace FilterController

/-- C1: after `handleAttachedRowsRemoved` with `0 ≤ first`, where `n` is the row
count of the attachment list (rows already removed), the current index is
`first` when `first < n` and `n - 1` otherwise; it is `-1` exactly when the list
is empty, otherwise it lies in `[0, n)`; it is never left at `-2`. -/
theorem handleAttachedRowsRemoved_index (c : FilterController) (first last : Int)
    (h : 0 ≤ first) :
    (c.handleAttachedRowsRemoved first last).m_currentFilterIndex =
        (if first < c.m_attachedModel.rowCount then first else c.m_attachedModel.rowCount - 1) ∧
      ((c.handleAttachedRowsRemoved first last).m_currentFilterIndex = -1 ↔
        c.m_attachedModel.entries = []) ∧
      (c.m_attachedModel.entries ≠ [] →
        0 ≤ (c.handleAttachedRowsRemoved first last).m_currentFilterIndex ∧
        (c.handleAttachedRowsRemoved first last).m_currentFilterIndex <
          c.m_attachedModel.rowCount) ∧
      (c.handleAttachedRowsRemoved first last).m_currentFilterIndex ≠ -2 := by
  have hn := rowCount_nonneg c.m_attachedModel
  have hz := rowCount_eq_zero_iff c.m_attachedModel
  rw [handleAttachedRowsRemoved_eq, setCurrentFilter_index]
  refine ⟨?_, ?_, ?_, ?_⟩
  · split <;> split <;> omega
  · rw [← hz]; split <;> omega
  · intro hne
    have : c.m_attachedModel.rowCount ≠ 0 := fun h0 => hne (hz.mp h0)
    split <;> omega
  · split <;> omega

/-- Witness of C1: two entries are left and the removed range started at row 5;
the index is clamped to 1. -/
theorem handleAttachedRowsRemoved_index_witness :
    (Scenario.afterDetachFirst.handleAttachedRowsRemoved 5 5).m_currentFilterIndex =
        (if (5 : Int) < Scenario.afterDetachFirst.m_attachedModel.rowCount then 5
          else Scenario.afterDetachFirst.m_attachedModel.rowCount - 1) ∧
      ((Scenario.afterDetachFirst.handleAttachedRowsRemoved 5 5).m_currentFilterIndex = -1 ↔
        Scenario.afterDetachFirst.m_attachedModel.entries = []) ∧
      (Scenario.afterDetachFirst.m_attachedModel.entries ≠ [] →
        0 ≤ (Scenario.afterDetachFirst.handleAttachedRowsRemoved 5 5).m_currentFilterIndex ∧
        (Scenario.afterDetachFirst.handleAttachedRowsRemoved 5 5).m_currentFilterIndex <
          Scenario.afterDetachFirst.m_attachedModel.rowCount) ∧
      (Scenario.afterDetachFirst.handleAttachedRowsRemoved 5 5).m_currentFilterIndex ≠ -2 :=
  handleAttachedRowsRemoved_index Scenario.afterDetachFirst 5 5 (by decide)

/-- C2: `handleAttachedRowsRemoved` with `0 ≤ first` emits exactly
"about to change" and then "changed" with the new index, whatever the index held
before the removal: the comparison in `setCurrentFilter` never skips them. -/
theorem handleAttachedRowsRemoved_emits (c : FilterController) (first last : Int)
    (h : 0 ≤ first) :
    ∃ (filter : Option QmlFilter) (metadata : Option QmlMetadata),
      (c.handleAttachedRowsRemoved first last).signals =
        c.signals ++
          [Signal.currentFilterAboutToChange,
           Signal.currentFilterChanged filter metadata
             (if first < c.m_attachedModel.rowCount then first
               else c.m_attachedModel.rowCount - 1)] ∧
      metadata = c.m_attachedModel.getMetadata
        (c.handleAttachedRowsRemoved first last).m_currentFilterIndex ∧
      (c.handleAttachedRowsRemoved first last).m_currentFilter = filter := by
  have hidx := (handleAttachedRowsRemoved_eq c first last)
  have hne := removed_target_ne_sentinel c.m_attachedModel first h
  have htarget : (if first ≥ c.m_attachedModel.rowCount then c.m_attachedModel.rowCount - 1
      else first) = (if first < c.m_attachedModel.rowCount then first
        else c.m_attachedModel.rowCount - 1) := by
    split <;> split <;> omega
  rw [hidx, setCurrentFilter_other _ _ hne, htarget]
  exact ⟨_, _, by simp [signals], rfl, rfl⟩

/-- Witness of C2: the index is 1 before the removal and 1 after it, and both
notifications are emitted. -/
theorem handleAttachedRowsRemoved_emits_witness :
    Scenario.afterDetachSecond.m_currentFilterIndex = 1 ∧
      (0 : Int) ≤ 1 ∧
      ∃ (filter : Option QmlFilter) (metadata : Option QmlMetadata),
        (Scenario.afterDetachSecond.handleAttachedRowsRemoved 1 1).signals =
          Scenario.afterDetachSecond.signals ++
            [Signal.currentFilterAboutToChange,
             Signal.currentFilterChanged filter metadata
               (if (1 : Int) < Scenario.afterDetachSecond.m_attachedModel.rowCount then 1
                 else Scenario.afterDetachSecond.m_attachedModel.rowCount - 1)] ∧
        metadata = Scenario.afterDetachSecond.m_attachedModel.getMetadata
          (Scenario.afterDetachSecond.handleAttachedRowsRemoved 1 1).m_currentFilterIndex ∧
        (Scenario.afterDetachSecond.handleAttachedRowsRemoved 1 1).m_currentFilter = filter :=
  ⟨rfl, by decide, handleAttachedRowsRemoved_emits Scenario.afterDetachSecond 1 1 (by decide)⟩

/-- Counterexample to C3: with 2 entries left of 3, the selection at 2 and the
event `(first, last) = (0, 0)`, the current index does not become 1; it is 0. -/
theorem detach_first_of_three_not_clamped :
    Scenario.afterDetachFirst.m_attachedModel.entries.length = 2 ∧
      Scenario.afterDetachFirst.m_currentFilterIndex = 2 ∧
      (Scenario.afterDetachFirst.handleAttachedRowsRemoved 0 0).m_currentFilterIndex = 0 ∧
      ¬ (Scenario.afterDetachFirst.handleAttachedRowsRemoved 0 0).m_currentFilterIndex = 1 := by
  decide

/-- C3, amended: when the attachment list holds 2 entries after the removal and
the current index was 2, the event `(first, last) = (0, 0)` makes the current
index 0 (`first`, which is in bounds), and "about to change" followed by
"changed" with index 0 is emitted. -/
theorem detach_first_of_three (c : FilterController)
    (hlen : c.m_attachedModel.entries.length = 2) (_hcur : c.m_currentFilterIndex = 2) :
    (c.handleAttachedRowsRemoved 0 0).m_currentFilterIndex = 0 ∧
      (c.handleAttachedRowsRemoved 0 0).signals =
        c.signals ++
          [Signal.currentFilterAboutToChange,
           Signal.currentFilterChanged (c.handleAttachedRowsRemoved 0 0).m_currentFilter
             (c.m_attachedModel.getMetadata 0) 0] := by
  have hrc : c.m_attachedModel.rowCount = 2 := by
    simp [AttachedFiltersModel.rowCount, hlen]
  have ht : (if (0 : Int) ≥ c.m_attachedModel.rowCount then c.m_attachedModel.rowCount - 1
      else 0) = 0 := by
    rw [hrc]; decide
  have hne : (0 : Int) ≠
      ({ c with m_currentFilterIndex := -2 } : FilterController).m_currentFilterIndex := by
    show (0 : Int) ≠ -2
    decide
  rw [handleAttachedRowsRemoved_eq, ht, setCurrentFilter_other _ _ hne]
  exact ⟨rfl, by simp [signals]⟩

/-- Witness of the amended C3, at the scenario state. -/
theorem detach_first_of_three_witness :
    (Scenario.afterDetachFirst.handleAttachedRowsRemoved 0 0).m_currentFilterIndex = 0 ∧
      (Scenario.afterDetachFirst.handleAttachedRowsRemoved 0 0).signals =
        Scenario.afterDetachFirst.signals ++
          [Signal.currentFilterAboutToChange,
           Signal.currentFilterChanged
             (Scenario.afterDetachFirst.handleAttachedRowsRemoved 0 0).m_currentFilter
             (Scenario.afterDetachFirst.m_attachedModel.getMetadata 0) 0] :=
  detach_first_of_three Scenario.afterDetachFirst (by decide) (by decide)

/-- C4: `setCurrentFilter i` with `i` the current index leaves the controller
as it is, trace included.  Otherwise the current index becomes `i`, and the
trace grows by exactly "about to change" and then "changed" with the filter
object, the descriptor at `i` and `i`; the filter object is non-null exactly when
there is a descriptor at `i`; both notifications still see the former content of
the active-filter slot, which holds the new filter object afterwards. -/
theorem setCurrentFilter_contract (c : FilterController) (i : Int) :
    (i = c.m_currentFilterIndex → c.setCurrentFilter i = c) ∧
      (i ≠ c.m_currentFilterIndex →
        ∃ filter : Option QmlFilter,
          (filter.isSome ↔ (c.m_attachedModel.getMetadata i).isSome) ∧
          (∀ f, filter = some f →
            f = QmlFilter.new (c.m_attachedModel.getFilter i)
              (c.m_attachedModel.getMetadata i)) ∧
          (c.setCurrentFilter i).m_currentFilterIndex = i ∧
          (c.setCurrentFilter i).emitted =
            c.emitted ++
              [⟨Signal.currentFilterAboutToChange, c.m_currentFilter⟩,
               ⟨Signal.currentFilterChanged filter (c.m_attachedModel.getMetadata i) i,
                 c.m_currentFilter⟩] ∧
          (c.setCurrentFilter i).m_currentFilter = filter ∧
          (c.setCurrentFilter i).m_attachedModel = c.m_attachedModel ∧
          (c.setCurrentFilter i).m_metadataModel = c.m_metadataModel) := by
  refine ⟨setCurrentFilter_same c i, fun h => ?_⟩
  rw [setCurrentFilter_other c i h]
  refine ⟨_, ?_, ?_, rfl, rfl, rfl, rfl, rfl⟩
  · simp
  · intro f hf
    cases hm : c.m_attachedModel.getMetadata i with
    | none => simp [hm] at hf
    | some m =>
      simp only [hm, Option.map_some', Option.some.injEq] at hf
      exact hf.symm

/-- Witness of C4: selecting index 2 again changes nothing; selecting index 7,
where the list has no entry, records 7 and notifies with a null filter. -/
theorem setCurrentFilter_contract_witness :
    Scenario.afterDetachFirst.setCurrentFilter 2 = Scenario.afterDetachFirst ∧
      ∃ filter : Option QmlFilter,
        (filter.isSome ↔ (Scenario.afterDetachFirst.m_attachedModel.getMetadata 7).isSome) ∧
        (∀ f, filter = some f →
          f = QmlFilter.new (Scenario.afterDetachFirst.m_attachedModel.getFilter 7)
            (Scenario.afterDetachFirst.m_attachedModel.getMetadata 7)) ∧
        (Scenario.afterDetachFirst.setCurrentFilter 7).m_currentFilterIndex = 7 ∧
        (Scenario.afterDetachFirst.setCurrentFilter 7).emitted =
          Scenario.afterDetachFirst.emitted ++
            [⟨Signal.currentFilterAboutToChange, Scenario.afterDetachFirst.m_currentFilter⟩,
             ⟨Signal.currentFilterChanged filter
                (Scenario.afterDetachFirst.m_attachedModel.getMetadata 7) 7,
               Scenario.afterDetachFirst.m_currentFilter⟩] ∧
        (Scenario.afterDetachFirst.setCurrentFilter 7).m_currentFilter = filter ∧
        (Scenario.afterDetachFirst.setCurrentFilter 7).m_attachedModel =
          Scenario.afterDetachFirst.m_attachedModel ∧
        (Scenario.afterDetachFirst.setCurrentFilter 7).m_metadataModel =
          Scenario.afterDetachFirst.m_metadataModel :=
  ⟨(setCurrentFilter_contract Scenario.afterDetachFirst 2).1 (by decide),
   (setCurrentFilter_contract Scenario.afterDetachFirst 7).2 (by decide)⟩

/-- C5: after `handleAttachedRowsInserted` for a row inserted at `p`, whatever
the index held before, the current index is `p`, the active filter is a new
filter object with `isNew` set, and the trace grows by exactly
"about to change" and then "changed" with that object and `p`. -/
theorem handleAttachedRowsInserted_contract (c : FilterController) (p last : Int) :
    ∃ filter : QmlFilter,
      filter.isNew = true ∧
      filter.mltFilter = c.m_attachedModel.getFilter p ∧
      filter.metadata = c.m_attachedModel.getMetadata p ∧
      (c.handleAttachedRowsInserted p last).m_currentFilterIndex = p ∧
      (c.handleAttachedRowsInserted p last).m_currentFilter = some filter ∧
      (c.handleAttachedRowsInserted p last).signals =
        c.signals ++
          [Signal.currentFilterAboutToChange,
           Signal.currentFilterChanged (some filter) (c.m_attachedModel.getMetadata p) p] :=
  ⟨_, rfl, rfl, rfl, rfl, rfl, by simp [handleAttachedRowsInserted, signals, emit]⟩

/-- C6: after `handleAttachedModelAboutToReset` the current index is `-1`; the
trace grows by "about to change" and "changed" with index `-1` when the index
was not `-1` before, and by nothing when it was. -/
theorem handleAttachedModelAboutToReset_contract (c : FilterController) :
    c.handleAttachedModelAboutToReset.m_currentFilterIndex = -1 ∧
      c.handleAttachedModelAboutToReset.signals =
        c.signals ++
          (if c.m_currentFilterIndex = -1 then []
            else [Signal.currentFilterAboutToChange,
                  Signal.currentFilterChanged none none (-1)]) := by
  unfold handleAttachedModelAboutToReset
  refine ⟨setCurrentFilter_index c (-1), ?_⟩
  by_cases h : c.m_currentFilterIndex = -1
  · rw [setCurrentFilter_same c (-1) h.symm, if_pos h, List.append_nil]
  · have hm : c.m_attachedModel.getMetadata (-1) = none := by
      simp [AttachedFiltersModel.getMetadata]
    rw [setCurrentFilter_other c (-1) (fun e => h e.symm), if_neg h, hm]
    simp [signals]

/-- The status text: `%1` of the pattern is replaced by the display name. -/
theorem duplicate_message (name : String) :
    QString.arg (tr "Only one %1 filter is allowed.") name =
      "Only one " ++ name ++ " filter is allowed." := by
  apply String.ext
  simp [QString.arg, QString.argChars, tr]

/-- C7: when the entry at `k` has a descriptor, `handleAttachDuplicateFailed k`
returns, emits exactly one status message, "Only one N filter is allowed." for
the descriptor's display name N, and leaves the current index at `k`; the two
selection notifications follow the message exactly when `k` was not the current
index before. -/
theorem handleAttachDuplicateFailed_contract (c : FilterController) (k : Int)
    (metadata : QmlMetadata) (h : c.m_attachedModel.getMetadata k = some metadata) :
    ∃ c1 : FilterController,
      c.handleAttachDuplicateFailed k = some c1 ∧
      c1.m_currentFilterIndex = k ∧
      c1.signals =
        c.signals ++
          Signal.statusChanged ("Only one " ++ metadata.name ++ " filter is allowed.") ::
            (if k = c.m_currentFilterIndex then []
              else [Signal.currentFilterAboutToChange,
                    Signal.currentFilterChanged
                      (some (QmlFilter.new (c.m_attachedModel.getFilter k) (some metadata)))
                      (some metadata) k]) := by
  have hrun : c.handleAttachDuplicateFailed k =
      some ((c.emit (Signal.statusChanged
        (QString.arg (tr "Only one %1 filter is allowed.") metadata.name))).setCurrentFilter k) := by
    simp only [handleAttachDuplicateFailed, h]
  refine ⟨_, hrun, setCurrentFilter_index _ _, ?_⟩
  rw [duplicate_message]
  by_cases hk : k = c.m_currentFilterIndex
  · rw [setCurrentFilter_same _ _ (by simpa [emit] using hk), if_pos hk, signals_emit]
  · rw [setCurrentFilter_other _ _ (by simpa [emit] using hk), if_neg hk]
    simp [signals, emit, h]

/-- Witness of C7: "blur" is attached at index 0 and selected; the rejected
second attach reports index 0; the index stays 0 and the one message emitted
names "blur". -/
theorem handleAttachDuplicateFailed_contract_witness :
    Scenario.blurAttached.m_attachedModel.getMetadata 0 = some Scenario.blur ∧
      ∃ c1 : FilterController,
        Scenario.blurAttached.handleAttachDuplicateFailed 0 = some c1 ∧
        c1.m_currentFilterIndex = 0 ∧
        c1.signals =
          Scenario.blurAttached.signals ++
            Signal.statusChanged ("Only one " ++ Scenario.blur.name ++ " filter is allowed.") ::
              (if (0 : Int) = Scenario.blurAttached.m_currentFilterIndex then []
                else [Signal.currentFilterAboutToChange,
                      Signal.currentFilterChanged
                        (some (QmlFilter.new (Scenario.blurAttached.m_attachedModel.getFilter 0)
                          (some Scenario.blur)))
                        (some Scenario.blur) 0]) :=
  ⟨by decide, handleAttachDuplicateFailed_contract Scenario.blurAttached 0 Scenario.blur (by decide)⟩

end FilterController

/-! ## Discovery and lookup -/

namespace FilterController

theorem loadFilterMetadataFile_eq (repository : FilterRepository)
    (store : QmlMetadata → Settings) (d : FilterDir) (c : FilterController) (f : MetaFile) :
    loadFilterMetadataFile repository store d c f =
      { c with m_metadataModel := ⟨c.m_metadataModel.list ++
          ((instantiated repository (d, f)).map (finalized store d)).toList⟩ } := by
  unfold loadFilterMetadataFile instantiated
  cases hf : f.create with
  | none => simp
  | some m =>
    by_cases hm : m.mlt_service ∈ repository
    · simp [FilterRepository.get_data, hm, Option.filter, addMetadata, MetadataModel.add,
        finalized]
    · simp [FilterRepository.get_data, hm, Option.filter]

theorem loadFiles_eq (repository : FilterRepository) (store : QmlMetadata → Settings)
    (d : FilterDir) (files : List MetaFile) (c : FilterController) :
    files.foldl (loadFilterMetadataFile repository store d) c =
      { c with m_metadataModel := ⟨c.m_metadataModel.list ++
          (files.map (fun f => (d, f))).filterMap
            (fun candidate =>
              (instantiated repository candidate).map (finalized store candidate.1))⟩ } := by
  induction files generalizing c with
  | nil => simp
  | cons f fs ih =>
    rw [List.foldl_cons, ih, loadFilterMetadataFile_eq]
    cases h : instantiated repository (d, f) <;> simp [h]

theorem loadFilterMetadata_eq (repository : FilterRepository) (store : QmlMetadata → Settings)
    (dirs : List FilterDir) (c : FilterController) :
    loadFilterMetadata repository store dirs c =
      { c with m_metadataModel :=
          ⟨c.m_metadataModel.list ++ discovered repository store dirs⟩ } := by
  unfold loadFilterMetadata discovered candidates
  induction dirs generalizing c with
  | nil => simp
  | cons d ds ih =>
    rw [List.foldl_cons, loadFiles_eq, ih]
    simp [List.filterMap_append]

theorem discovered_service_mem (repository : FilterRepository)
    (store : QmlMetadata → Settings) (dirs : List FilterDir) (m : QmlMetadata)
    (hm : m ∈ discovered repository store dirs) : m.mlt_service ∈ repository := by
  unfold discovered at hm
  rw [List.mem_filterMap] at hm
  obtain ⟨candidate, _, hc⟩ := hm
  rw [Option.map_eq_some'] at hc
  obtain ⟨m0, hm0, rfl⟩ := hc
  unfold instantiated at hm0
  rw [Option.filter_eq_some] at hm0
  simpa [finalized, QmlMetadata.loadSettings, QmlMetadata.setPath] using hm0.2

theorem discovered_uniqueIds (repository : FilterRepository)
    (store : QmlMetadata → Settings) (dirs : List FilterDir) :
    (discovered repository store dirs).map (fun m => m.uniqueId) =
      ((candidates dirs).filterMap (instantiated repository)).map (fun m => m.uniqueId) := by
  unfold discovered
  generalize candidates dirs = cs
  induction cs with
  | nil => rfl
  | cons x xs ih =>
    cases h : instantiated repository x <;>
      simp [List.filterMap_cons, h, ih, finalized, QmlMetadata.loadSettings,
        QmlMetadata.setPath]

theorem metadataForServiceLoop_eq (model : MetadataModel) (uniqueId : String) (n i : Nat)
    (hn : i + n = model.list.length) :
    metadataForServiceLoop model uniqueId (List.range' i n) =
      (model.list.drop i).find? (fun m => decide (m.uniqueId = uniqueId)) := by
  induction n generalizing i with
  | zero =>
    have hi : model.list.length ≤ i := by omega
    rw [List.range'_zero, List.drop_eq_nil_of_le hi]
    rfl
  | succ n ih =>
    have hi : i < model.list.length := by omega
    have hget : model.get i = some model.list[i] := by
      simp [MetadataModel.get, List.getElem?_eq_getElem hi]
    rw [List.range'_succ, metadataForServiceLoop, hget, List.drop_eq_getElem_cons hi,
      List.find?_cons]
    by_cases hu : model.list[i].uniqueId = uniqueId
    · simp [hu]
    · simp only [hu, if_false, decide_False]
      exact ih (i + 1) (by omega)

theorem find_first {α : Type} (p : α → Bool) (l : List α) (a : α) (h : l.find? p = some a) :
    ∃ i, l.get? i = some a ∧ p a = true ∧ ∀ j, j < i → ∀ b, l.get? j = some b → p b = false := by
  induction l with
  | nil => simp at h
  | cons x xs ih =>
    rw [List.find?_cons] at h
    cases hx : p x with
    | true =>
      rw [hx] at h
      simp only [Option.some.injEq] at h
      subst h
      exact ⟨0, rfl, hx, fun j hj => absurd hj (Nat.not_lt_zero j)⟩
    | false =>
      rw [hx] at h
      obtain ⟨i, hi, hp, hlt⟩ := ih h
      refine ⟨i + 1, by simpa using hi, hp, fun j hj b hb => ?_⟩
      cases j with
      | zero =>
        simp only [List.get?_cons_zero, Option.some.injEq] at hb
        rw [← hb]; exact hx
      | succ j => exact hlt j (by omega) b (by simpa using hb)

theorem metadataForService_key (k : String) (c : FilterController) (service : MltService) :
    (metadataForService k c service).1 =
      c.m_metadataModel.list.find? (fun m => decide (m.uniqueId = lookupKey k service)) := by
  have hkey : (if (QString.fromCStr (service.get k)).isEmpty = true then
      QString.fromCStr (service.get "mlt_service") else QString.fromCStr (service.get k)) =
      lookupKey k service := by
    unfold lookupKey
    by_cases he : QString.fromCStr (service.get k) = ""
    · rw [if_pos ((String.isEmpty_iff _).mpr he), if_neg (not_not.mpr he)]
    · rw [if_neg (fun h => he ((String.isEmpty_iff _).mp h)), if_pos he]
  unfold metadataForService
  simp only [hkey]
  rw [MetadataModel.rowCount, List.range_eq_range', metadataForServiceLoop_eq _ _ _ 0 (by simp),
    List.drop_zero]

end FilterController

/-! ## Discovery and lookup: the claims -/

namespace FilterController

/-- C8: the registry after `loadFilterMetadata` is the registry before it
followed by the entries made of exactly those candidates, in candidate order,
that instantiate and whose `mlt_service` is in the repository; a failed
instantiation or an absent backend is passed over and the scan goes on.  Every
entry added has its `mlt_service` in the repository, and nothing else of the
controller changes. -/
theorem loadFilterMetadata_registry (repository : FilterRepository)
    (store : QmlMetadata → Settings) (dirs : List FilterDir) (c : FilterController) :
    (loadFilterMetadata repository store dirs c).m_metadataModel.list =
        c.m_metadataModel.list ++
          (candidates dirs).filterMap
            (fun candidate =>
              (candidate.2.create.filter (fun m => decide (m.mlt_service ∈ repository))).map
                (finalized store candidate.1)) ∧
      (∀ m ∈ (loadFilterMetadata repository store dirs c).m_metadataModel.list,
        m ∈ c.m_metadataModel.list ∨ m.mlt_service ∈ repository) ∧
      loadFilterMetadata repository store dirs c =
        { c with m_metadataModel := (loadFilterMetadata repository store dirs c).m_metadataModel } := by
  rw [loadFilterMetadata_eq]
  refine ⟨rfl, fun m hm => ?_, rfl⟩
  rcases List.mem_append.mp hm with h | h
  · exact Or.inl h
  · exact Or.inr (discovered_service_mem repository store dirs m h)

/-- Counterexample to C9: two descriptor files of one package declare the
`uniqueId` "blur" and both backends are present; starting from an empty registry,
discovery adds both. -/
theorem loadFilterMetadata_keeps_duplicate_ids :
    Scenario.fresh.m_metadataModel.list = [] ∧
      ((loadFilterMetadata Scenario.repository (fun _ => []) Scenario.pluginTree
          Scenario.fresh).m_metadataModel.list.map (fun m => m.uniqueId)) =
        ["blur", "blur", "glow"] ∧
      ¬ ((loadFilterMetadata Scenario.repository (fun _ => []) Scenario.pluginTree
          Scenario.fresh).m_metadataModel.list.map (fun m => m.uniqueId)).Nodup := by
  decide

/-- C9, amended: discovery does not compare `uniqueId`s.  Starting from an empty
registry, the registry after `loadFilterMetadata` has no two entries with equal
`uniqueId` exactly when no two of the instantiated descriptors with a present
backend have equal `uniqueId`. -/
theorem loadFilterMetadata_nodup_iff (repository : FilterRepository)
    (store : QmlMetadata → Settings) (dirs : List FilterDir) (c : FilterController)
    (hempty : c.m_metadataModel.list = []) :
    ((loadFilterMetadata repository store dirs c).m_metadataModel.list.map
        (fun m => m.uniqueId)).Nodup ↔
      (((candidates dirs).filterMap
          (fun candidate =>
            candidate.2.create.filter (fun m => decide (m.mlt_service ∈ repository)))).map
        (fun m => m.uniqueId)).Nodup := by
  rw [loadFilterMetadata_eq]
  simp only [hempty, List.nil_append]
  rw [discovered_uniqueIds]
  rfl

/-- Witness of the amended C9: without the second "blur" file the accepted
descriptors have distinct ids, and so has the registry. -/
theorem loadFilterMetadata_nodup_iff_witness :
    Scenario.fresh.m_metadataModel.list = [] ∧
      ((loadFilterMetadata Scenario.repository (fun _ => []) (Scenario.pluginTree.drop 1)
        Scenario.fresh).m_metadataModel.list.map (fun m => m.uniqueId)).Nodup :=
  ⟨rfl, (loadFilterMetadata_nodup_iff Scenario.repository (fun _ => [])
    (Scenario.pluginTree.drop 1) Scenario.fresh rfl).mpr (by decide)⟩

/-- C10: `metadataForService` leaves the controller as it is.  With the key
being the service's shotcut filter property when non-empty and its `mlt_service`
otherwise, the result is null exactly when no registry entry has that
`uniqueId`, and otherwise it is the entry of lowest index that has it. -/
theorem metadataForService_contract (k : String) (c : FilterController)
    (service : MltService) :
    (metadataForService k c service).2 = c ∧
      ((metadataForService k c service).1 = none ↔
        ∀ m ∈ c.m_metadataModel.list, m.uniqueId ≠ lookupKey k service) ∧
      (∀ m, (metadataForService k c service).1 = some m →
        ∃ i, c.m_metadataModel.list.get? i = some m ∧
          m.uniqueId = lookupKey k service ∧
          ∀ j, j < i → ∀ b, c.m_metadataModel.list.get? j = some b →
            b.uniqueId ≠ lookupKey k service) := by
  refine ⟨rfl, ?_, fun m hm => ?_⟩
  · rw [metadataForService_key, List.find?_eq_none]
    simp
  · rw [metadataForService_key] at hm
    obtain ⟨i, hi, hp, hlt⟩ := find_first _ _ _ hm
    refine ⟨i, hi, by simpa using hp, fun j hj b hb => ?_⟩
    simpa using hlt j hj b hb

/-- Witness of C10: a legacy service without the shotcut filter property is
looked up by its `mlt_service`, "glow", and the entry at index 1 is returned. -/
theorem metadataForService_contract_witness :
    (metadataForService "shotcut:filter" Scenario.afterDetachFirst Scenario.legacyService).1 =
        some Scenario.glow ∧
      ∃ i, Scenario.afterDetachFirst.m_metadataModel.list.get? i = some Scenario.glow ∧
        Scenario.glow.uniqueId = lookupKey "shotcut:filter" Scenario.legacyService ∧
        ∀ j, j < i → ∀ b, Scenario.afterDetachFirst.m_metadataModel.list.get? j = some b →
          b.uniqueId ≠ lookupKey "shotcut:filter" Scenario.legacyService :=
  ⟨by decide,
   (metadataForService_contract "shotcut:filter" Scenario.afterDetachFirst
      Scenario.legacyService).2.2 Scenario.glow (by decide)⟩

end FilterController

end Shotcut
